import Mathlib

/-!
# Verification of the riptide migration engine (`src/db/migrate.ts`)

A shallow embedding of the migration source reader, ledger accessor and
coordinator (`getAvailableMigrations`, `getMigrationStatus`, `runMigrations`,
`rollbackMigration`).  Strings are `List Char`; the filesystem is a directory
listing plus a contents map; the remote `client.rpc('pgclient_exec', ...)`
call is an oracle `Nat → RResp` giving the response of the n-th remote call
of a run, and every issued call is recorded in a trace.
-/

set_option autoImplicit false

namespace Riptide

/-- Strings as character lists (JS strings, compared by code unit). -/
abbrev Str := List Char

/-- Coerce a Lean string literal to the embedding's string type. -/
def str (s : String) : Str := s.data

/-- JS regex `\s` / `String.trim` whitespace (the ASCII part; the unicode
space characters JS also accepts never occur in the inputs considered). -/
def isWs (c : Char) : Bool :=
  c = ' ' || c = '\t' || c = '\n' || c = '\r' || c = '\x0b' || c = '\x0c'

/-- Test `beginsWith pat s` : `pat` is an initial segment of `s`. -/
def beginsWith : Str → Str → Bool
  | [], _ => true
  | _ :: _, [] => false
  | a :: as, b :: bs => a = b && beginsWith as bs

/-- Test `endsWith pat s` : `pat` is a final segment of `s` (JS `String.endsWith`). -/
def endsWith (pat s : Str) : Bool := beginsWith pat.reverse s.reverse

/-- JS `String.trim`: drop whitespace from both ends. -/
def trim (s : Str) : Str := ((s.dropWhile isWs).reverse.dropWhile isWs).reverse

/-- Dot (`.`) in a JS regex without the `s` flag: any char except a line terminator
(` `/` ` elided). -/
def noNl (s : Str) : Bool := s.all fun c => !(c = '\n' || c = '\r')

/-! ## Data model (`src/db/types.ts`) -/

/-- Source `interface Migration { id; name; filename; appliedAt? }`.  For rows read
back from the ledger, `id` is the ledger id and `appliedAt` the stored
timestamp; for filesystem definitions, `id` is positional and `appliedAt`
is absent. -/
structure Migration where
  id : Nat
  name : Str
  filename : Str
  appliedAt : Option Str
deriving DecidableEq, Repr

/-- Source `interface MigrationStatus { total; applied; pending; migrations }`.
`pending` is a JS number and can be negative, hence `Int`. -/
structure MigrationStatus where
  total : Nat
  applied : Nat
  pending : Int
  migrations : List Migration
deriving DecidableEq, Repr

/-- The `Error` values thrown inside `migrate.ts`, one constructor per throw
site, each carrying the data interpolated into the message. -/
inductive MigErr where
  | appliedFetchFailed (msg : Str)
  | sqlFileFailed (file msg : Str)
  | downNotFound (file : Str)
  | rollbackFailed (msg : Str)
deriving DecidableEq, Repr

/-- The message text of each thrown `Error`, as built in the source. -/
def MigErr.render : MigErr → Str
  | .appliedFetchFailed msg => str "Failed to get applied migrations: " ++ msg
  | .sqlFileFailed file msg => str "Failed to execute SQL file " ++ file ++ str ": " ++ msg
  | .downNotFound file => str "Could not find down migration in " ++ file
  | .rollbackFailed msg => str "Failed to execute rollback: " ++ msg

/-- Source `interface MigrationResult { success; appliedMigrations; error? }`. -/
structure MigrationResult where
  success : Bool
  appliedMigrations : List Migration
  error : Option MigErr
deriving DecidableEq, Repr

/-! ## The remote call model

Every remote interaction is `client.rpc('pgclient_exec', { query })`, which
resolves to `{ data, error }` and never rejects.  We model the backend as an
oracle from the call's position in the run to its response, and record each
issued call (identified by its site and the data interpolated into its SQL
text) in a trace. -/

/-- A `{ data, error }` response: `ok rows` is `error: null` with `data`
rows (`ok []` covers `data: null`), `err m` is `error: { message: m }`. -/
inductive RResp where
  | ok (rows : List Migration)
  | err (msg : Str)
deriving DecidableEq, Repr

/-- True when the `error` field is null. -/
def RResp.isOk : RResp → Bool
  | .ok _ => true
  | .err _ => false

/-- One issued `pgclient_exec` call, identified by the query each call site
builds: the `CREATE TABLE IF NOT EXISTS` of `ensureMigrationsTable`, the
`SELECT ... ORDER BY id ASC` of `getAppliedMigrations`, a migration (or
rollback) SQL text, the ledger `INSERT` and the ledger `DELETE`. -/
inductive Call where
  | createTable (table : Str)
  | selectApplied (table : Str)
  | execSql (sql : Str)
  | insertRow (table name filename : Str)
  | deleteRow (table : Str) (id : Nat)
deriving DecidableEq, Repr

/-- Position of the next remote call, and the calls issued so far. -/
structure StepState where
  k : Nat
  trace : List Call
deriving DecidableEq, Repr

def StepState.init : StepState := ⟨0, []⟩

/-- The remote backend as a response oracle, indexed by call position. -/
abbrev Remote := Nat → RResp

/-- Issue one remote call: consume the oracle's response at the current
position and append the call to the trace. -/
def rpc (remote : Remote) (c : Call) (s : StepState) : RResp × StepState :=
  (remote s.k, ⟨s.k + 1, s.trace ++ [c]⟩)

/-- The filesystem: the listing of the migrations directory and the text of
each file, keyed by filename (`path.join(__dirname, 'migrations', f)` is
keyed here by `f`). -/
structure Fs where
  dirFiles : List Str
  contents : Str → Str

/-! ## Migration source reader (`getAvailableMigrations`) -/

/-- Lexicographic order on strings by code unit (the JS default sort
comparator's order). -/
def lexLe : Str → Str → Bool
  | [], _ => true
  | _ :: _, [] => false
  | a :: as, b :: bs => if a < b then true else if b < a then false else lexLe as bs

/-- Insert into a sorted list, keeping earlier elements on ties (JS
`Array.sort` default comparator: lexicographic by code unit, stable). -/
def insertStr (f : Str) : List Str → List Str
  | [] => [f]
  | g :: gs => if lexLe f g then f :: g :: gs else g :: insertStr f gs

/-- JS `Array.prototype.sort()` on strings (insertion sort; stable). -/
def sortStr : List Str → List Str
  | [] => []
  | f :: fs => insertStr f (sortStr fs)

/-- Name stripping, `filename.replace` with the anchored digits-then-core
regex: when the filename is a
non-empty digit run, `'_'`, a non-empty core without line terminators and a
final `".sql"`, the core; otherwise the filename unchanged. -/
def stripName (f : Str) : Str :=
  match f.takeWhile Char.isDigit, f.dropWhile Char.isDigit with
  | _ :: _, '_' :: r =>
    let core := r.take (r.length - 4)
    if Nat.ble 5 r.length && endsWith (str ".sql") r && noNl core then core else f
  | _, _ => f

/-- Numbering, `files.map((filename, index) => ({ id: index + 1, name, filename }))`,
with the running index made explicit. -/
def withIds : Nat → List Str → List Migration
  | _, [] => []
  | i, f :: fs =>
    { id := i + 1, name := stripName f, filename := f, appliedAt := none } :: withIds (i + 1) fs

/-- Source `getAvailableMigrations`: list the directory, keep `.sql` files, sort
lexicographically, number positionally and strip names. -/
def getAvailableMigrations (dirFiles : List Str) : List Migration :=
  withIds 0 (sortStr (dirFiles.filter fun f => endsWith (str ".sql") f))

/-! ## Ledger store accessor -/

/-- Source `ensureMigrationsTable`: issue the `CREATE TABLE IF NOT EXISTS` call.
The source does not destructure the response — it is ignored. -/
def ensureMigrationsTable (remote : Remote) (tbl : Str) (s : StepState) : StepState :=
  (rpc remote (.createTable tbl) s).2

/-- Source `getAppliedMigrations`: issue the ledger `SELECT`; throw on a reported
error (`data || []` is the `ok` payload). -/
def getAppliedMigrations (remote : Remote) (tbl : Str) (s : StepState) :
    Except MigErr (List Migration) × StepState :=
  match rpc remote (.selectApplied tbl) s with
  | (.ok rows, s') => (.ok rows, s')
  | (.err msg, s') => (.error (.appliedFetchFailed msg), s')

/-! ## Status (`getMigrationStatus`) -/

/-- Lookup `new Map(appliedMigrations.map(m => [m.filename, m])).get(f)`: a later
row with the same filename overwrites an earlier one. -/
def mapGet (rows : List Migration) (f : Str) : Option Migration :=
  rows.foldl (fun acc r => if r.filename = f then some r else acc) none

/-- Decorate one source definition with the matching ledger row's
`appliedAt` (`appliedMap.get(m.filename)?.appliedAt`). -/
def decorate (rows : List Migration) (m : Migration) : Migration :=
  { m with appliedAt := (mapGet rows m.filename).bind Migration.appliedAt }

/-- The pure part of `getMigrationStatus` (lines 91–107 of the source),
given the ledger rows the `SELECT` returned and the directory listing. -/
def computeStatus (dirFiles : List Str) (rows : List Migration) : MigrationStatus :=
  let avail := getAvailableMigrations dirFiles
  { total := avail.length
    applied := rows.length
    pending := (avail.length : Int) - (rows.length : Int)
    migrations := avail.map (decorate rows) }

/-- Source `getMigrationStatus`: ensure the table, read the ledger, reconcile. -/
def getMigrationStatus (remote : Remote) (dirFiles : List Str) (tbl : Str) (s : StepState) :
    Except MigErr MigrationStatus × StepState :=
  let s1 := ensureMigrationsTable remote tbl s
  match getAppliedMigrations remote tbl s1 with
  | (.ok rows, s2) => (.ok (computeStatus dirFiles rows), s2)
  | (.error e, s2) => (.error e, s2)

/-- JS truthiness of `!m.appliedAt`: absent or empty string is falsy. -/
def falsyOpt : Option Str → Bool
  | none => true
  | some s => s.isEmpty

/-- Filter `status.migrations.filter(m => !m.appliedAt)`: the pending list a run
over directory `dirFiles` and ledger rows `rows` iterates. -/
def pendingOf (dirFiles : List Str) (rows : List Migration) : List Migration :=
  (computeStatus dirFiles rows).migrations.filter fun m => falsyOpt m.appliedAt

/-! ## Apply (`executeSqlFile`, `runMigrations`) -/

/-- The `for (const migration of pendingMigrations)` loop.  Each iteration
inlines `executeSqlFile` (which reads the file and, when not a dry run,
executes it remotely and throws on a reported error) and then, when not a
dry run, issues the ledger `INSERT` (response ignored) and pushes the
migration onto the applied accumulator. -/
def applyLoop (remote : Remote) (contents : Str → Str) (tbl : Str) (dryRun : Bool) :
    List Migration → List Migration → StepState → Except MigErr (List Migration) × StepState
  | [], acc, s => (.ok acc, s)
  | m :: rest, acc, s =>
    if dryRun then
      applyLoop remote contents tbl dryRun rest acc s
    else
      match rpc remote (.execSql (contents m.filename)) s with
      | (.err msg, s1) => (.error (.sqlFileFailed m.filename msg), s1)
      | (.ok _, s1) =>
        let s2 := (rpc remote (.insertRow tbl m.name m.filename) s1).2
        applyLoop remote contents tbl dryRun rest (acc ++ [m]) s2

/-- Source `runMigrations` (the spec's `applyPending`): ensure the table, compute
status (which ensures again and reads the ledger), return early when the
pending count is zero, otherwise run the apply loop; any thrown error is
caught and becomes `{ success: false, appliedMigrations: [], error }`. -/
def runMigrations (remote : Remote) (fs : Fs) (tbl : Str) (dryRun : Bool) :
    MigrationResult × StepState :=
  let s1 := ensureMigrationsTable remote tbl StepState.init
  match getMigrationStatus remote fs.dirFiles tbl s1 with
  | (.error e, s2) => ({ success := false, appliedMigrations := [], error := some e }, s2)
  | (.ok status, s2) =>
    if status.pending = 0 then
      ({ success := true, appliedMigrations := [], error := none }, s2)
    else
      match applyLoop remote fs.contents tbl dryRun
          (status.migrations.filter fun m => falsyOpt m.appliedAt) [] s2 with
      | (.ok applied, s3) => ({ success := true, appliedMigrations := applied, error := none }, s3)
      | (.error e, s3) => ({ success := false, appliedMigrations := [], error := some e }, s3)

/-! ## Rollback (`rollbackMigration`)

The down block is located by matching `sql` against the regex built from:
the marker text `"-- Down Migration"`, then `\s+`, then an escaped block
opener, then `.*?`, then the capture group `(DROP` followed by `.*?` and a
closing parenthesis, then an escaped block closer, under the `s` flag.
With the `s` flag, `.` matches anything; the match is leftmost, the two
`.*?` are lazy and `\s+` is greedy.  Concretely: at the first occurrence of the marker
text from which the whole pattern completes, a non-empty whitespace run
must be followed immediately by the block opener; the capture starts at the
first `DROP` after it that still has a block closer behind it, and ends at
the first such closer. -/

/-- Split at the first occurrence of `pat`: `some (before, after)` with the
scanned text equal to `before ++ pat ++ after`. -/
def splitOnFirst (pat : Str) : Str → Option (Str × Str)
  | [] => if beginsWith pat [] then some ([], []) else none
  | c :: rest =>
    if beginsWith pat (c :: rest) then some ([], (c :: rest).drop pat.length)
    else
      match splitOnFirst pat rest with
      | some (p, r) => some (c :: p, r)
      | none => none

/-- After the marker: the greedy `\s+` followed by the literal block opener.
Returns the text after the opener. -/
def afterBlockOpen (s : Str) : Option Str :=
  let ws := s.takeWhile isWs
  let rest := s.dropWhile isWs
  if ws.isEmpty then none
  else if beginsWith (str "/*") rest then some (rest.drop 2)
  else none

/-- Inside the block: lazily reach the first `DROP` from which a closer is
still ahead, and capture up to the first closer after it. -/
def captureFrom (s : Str) : Option Str :=
  match splitOnFirst (str "DROP") s with
  | none => none
  | some (_, afterDrop) =>
    match splitOnFirst (str "*/") afterDrop with
    | none => none
    | some (mid, _) => some (str "DROP" ++ mid)

/-- The whole regex, one marker occurrence at a time: at each occurrence of
the marker (tried in order), require whitespace, the opener and a
successful capture, else move past that occurrence.  Each step strictly
shortens the scanned text (a marker occurrence is consumed), so the initial
length bounds the recursion depth; the fuel argument only makes the
recursion structural and its exhaustion branch is never reached. -/
def extractDownAux : Nat → Str → Option Str
  | 0, _ => none
  | fuel + 1, s =>
    match splitOnFirst (str "-- Down Migration") s with
    | none => none
    | some (_, afterMarker) =>
      match (afterBlockOpen afterMarker).bind captureFrom with
      | some cap => some cap
      | none => extractDownAux fuel afterMarker

/-- Match `sql.match(...)` for the down-migration regex: the captured group, when
the regex matches. -/
def extractDown (s : Str) : Option Str := extractDownAux (s.length + 1) s

/-- Source `rollbackMigration`: ensure the table, read the ledger, take the last
row, extract the down SQL from that row's file (throwing when the regex
does not match), then — unless a dry run — execute it remotely (throwing on
a reported error) and issue the ledger `DELETE` (response ignored).  Thrown
errors are caught into `{ success: false, appliedMigrations: [], error }`. -/
def rollbackMigration (remote : Remote) (contents : Str → Str) (tbl : Str) (dryRun : Bool) :
    MigrationResult × StepState :=
  let s1 := ensureMigrationsTable remote tbl StepState.init
  match getAppliedMigrations remote tbl s1 with
  | (.error e, s2) => ({ success := false, appliedMigrations := [], error := some e }, s2)
  | (.ok applied, s2) =>
    match applied.getLast? with
    | none => ({ success := true, appliedMigrations := [], error := none }, s2)
    | some last =>
      match extractDown (contents last.filename) with
      | none =>
        ({ success := false, appliedMigrations := [], error := some (.downNotFound last.filename) }, s2)
      | some cap =>
        if dryRun then
          ({ success := true, appliedMigrations := [last], error := none }, s2)
        else
          match rpc remote (.execSql (trim cap)) s2 with
          | (.err msg, s3) =>
            ({ success := false, appliedMigrations := [], error := some (.rollbackFailed msg) }, s3)
          | (.ok _, s3) =>
            let s4 := (rpc remote (.deleteRow tbl last.id) s3).2
            ({ success := true, appliedMigrations := [last], error := none }, s4)

/-! ## Trace observations -/

/-- Calls that execute migration (or rollback) SQL remotely — the calls
`executeSqlFile` and the rollback's down-SQL execution issue. -/
def isExec : Call → Bool
  | .execSql _ => true
  | _ => false

/-- The migration-SQL executions of a trace, in order. -/
def execCalls (t : List Call) : List Call := t.filter isExec

/-- The calls one successful non-dry apply iteration issues, over a list. -/
def applyCalls (contents : Str → Str) (tbl : Str) : List Migration → List Call
  | [] => []
  | m :: rest =>
    .execSql (contents m.filename) :: .insertRow tbl m.name m.filename ::
      applyCalls contents tbl rest

/-! ## Definitions following the spec's words (for comparison only)

The two definitions below are not translations of the source: they state
what the spec/claims literally describe, so that theorems can compare the
source's behaviour against them. -/

/-- The claim's reading of "the sequence derived from a numeric filename
prefix": the positive integer the filename's leading digit run denotes.
This definition follows the spec's words, for comparison with the source's
positional numbering. -/
def specPrefixNumber (f : Str) : Nat :=
  (f.takeWhile Char.isDigit).foldl (fun n c => n * 10 + (c.toNat - '0'.toNat)) 0

/-- The claim's reading of "a down block is present": somewhere after a
`"-- Down Migration"` marker, whitespace followed by a complete block
comment (with no requirement that the region contain `DROP`).  This
definition follows the spec's words, for comparison with the source's
regex.  Fuel as in `extractDownAux`. -/
def specHasDownBlockAux : Nat → Str → Bool
  | 0, _ => false
  | fuel + 1, s =>
    match splitOnFirst (str "-- Down Migration") s with
    | none => false
    | some (_, afterMarker) =>
      match afterBlockOpen afterMarker with
      | some blk => (splitOnFirst (str "*/") blk).isSome || specHasDownBlockAux fuel afterMarker
      | none => specHasDownBlockAux fuel afterMarker

def specHasDownBlock (s : Str) : Bool := specHasDownBlockAux (s.length + 1) s

/-! ## Concrete instances used by witnesses and counterexamples -/

/-- The default ledger table name (`DEFAULT_OPTIONS.migrationTableName`). -/
def tblName : Str := str "riptide_migrations"

/-- The spec's concrete scenario directory. -/
def exDir : List Str :=
  [str "01_create_profiles.sql", str "02_create_api_tokens.sql",
   str "03_create_user_sessions.sql"]

/-- A one-file directory. -/
def exDirOne : List Str := [str "01_create_profiles.sql"]

/-- Example contents: every file holds an up body and a down block. -/
def exContents : Str → Str := fun f =>
  str "CREATE TABLE x (id INT);\n-- Down Migration\n/*\nDROP TABLE " ++ f ++ str ";\n*/\n"

/-- A backend that answers every call successfully with no rows. -/
def okRemote : Remote := fun _ => .ok []

/-- A backend that reports an error at one position and succeeds (with no
rows) everywhere else. -/
def failAt (n : Nat) (msg : Str) : Remote :=
  fun k => if k = n then .err msg else .ok []

/-- A backend whose ledger `SELECT` (position 1 of a rollback run) returns
the given rows and that answers everything else successfully. -/
def rowsRemote (rows : List Migration) : Remote :=
  fun k => if k = 1 then .ok rows else .ok []

/-- As `rowsRemote`, but the down-SQL execution at position 2 fails. -/
def rowsRemoteFail (rows : List Migration) (msg : Str) : Remote :=
  fun k => if k = 1 then .ok rows else if k = 2 then .err msg else .ok []

/-- A ledger in which migrations 1, 2, 3 were applied in order and
migration 2 was then re-applied, so the row with the highest ledger id (4)
is migration 2's, while the highest-sequence migration is 3. -/
def exRows4 : List Migration :=
  [⟨1, str "create_profiles", str "01_create_profiles.sql", some (str "t1")⟩,
   ⟨2, str "create_api_tokens", str "02_create_api_tokens.sql", some (str "t2")⟩,
   ⟨3, str "create_user_sessions", str "03_create_user_sessions.sql", some (str "t3")⟩,
   ⟨4, str "create_api_tokens", str "02_create_api_tokens.sql", some (str "t4")⟩]

/-- A backend for the C10 witness: the two table-creation calls and the
ledger `INSERT` after the first migration all report errors; the ledger
`SELECT` and the migration executions succeed. -/
def ignoredErrRemote : Remote :=
  fun k => if k = 0 || k = 1 || k = 4 then .err (str "backend error") else .ok []

/-- A one-row ledger. -/
def exRows1 : List Migration :=
  [⟨1, str "create_profiles", str "01_create_profiles.sql", some (str "t1")⟩]

/-- A ledger holding more rows than the source directory has files. -/
def exTwoRows : List Migration :=
  [⟨1, str "a", str "1_a.sql", some (str "t1")⟩,
   ⟨2, str "b", str "2_b.sql", some (str "t2")⟩]

/-- A migration file whose down block — marker line, whitespace and a
complete block comment — reverses the up body with DELETE statements and
contains no `DROP`. -/
def exDeleteDown : Str → Str := fun _ =>
  str "CREATE TABLE t (id INT);\n-- Down Migration\n/*\nDELETE FROM t;\n*/\n"

/-- Example up-SQL contents keyed by filename. -/
def exSql : Str → Str := fun f => str "SQL " ++ f

theorem execCalls_append (a b : List Call) :
    execCalls (a ++ b) = execCalls a ++ execCalls b := by
  simp [execCalls, List.filter_append]

theorem execCalls_applyCalls (contents : Str → Str) (tbl : Str) :
    ∀ l : List Migration,
      execCalls (applyCalls contents tbl l) =
        l.map fun m => Call.execSql (contents m.filename) := by
  intro l
  induction l with
  | nil => rfl
  | cons m rest ih => simp [applyCalls, execCalls, List.filter, isExec] at ih ⊢; exact ih

/-! ## Positional numbering of source definitions -/

theorem withIds_get :
    ∀ (l : List Str) (n i : Nat) (h : i < (withIds n l).length),
      ((withIds n l).get ⟨i, h⟩).id = n + i + 1 := by
  intro l
  induction l with
  | nil => intro n i h; simp [withIds] at h
  | cons f fs ih =>
    intro n i h
    cases i with
    | zero => rfl
    | succ j =>
      have h' : j < (withIds (n + 1) fs).length := by
        simpa [withIds, Nat.succ_lt_succ_iff] using h
      have := ih (n + 1) j h'
      simpa [withIds, List.get, Nat.add_assoc, Nat.add_comm, Nat.add_left_comm] using this

theorem withIds_mem_id_gt :
    ∀ (l : List Str) (n : Nat) (m : Migration), m ∈ withIds n l → n < m.id := by
  intro l
  induction l with
  | nil => intro n m hm; simp [withIds] at hm
  | cons f fs ih =>
    intro n m hm
    rcases (List.mem_cons).mp hm with h | h
    · subst h; exact Nat.lt_succ_of_le (Nat.le_refl n)
    · exact Nat.lt_of_succ_lt (ih (n + 1) m h)

theorem withIds_pairwise (l : List Str) (n : Nat) :
    (withIds n l).Pairwise fun a b => a.id < b.id := by
  induction l generalizing n with
  | nil => exact List.Pairwise.nil
  | cons f fs ih =>
    refine List.Pairwise.cons (fun b hb => ?_) (ih (n + 1))
    exact withIds_mem_id_gt fs (n + 1) b hb

theorem decorate_id (rows : List Migration) (m : Migration) :
    (decorate rows m).id = m.id := rfl

/-- The pending list a run iterates has strictly ascending sequence
numbers: reconciliation decorates the positionally numbered source list in
place and the pending filter preserves its order. -/
theorem pendingOf_pairwise (dirFiles : List Str) (rows : List Migration) :
    (pendingOf dirFiles rows).Pairwise fun a b => a.id < b.id := by
  have h1 : ((getAvailableMigrations dirFiles).map (decorate rows)).Pairwise
      (fun a b => a.id < b.id) := by
    rw [List.pairwise_map]
    simpa [decorate_id] using
      withIds_pairwise (sortStr (dirFiles.filter fun f => endsWith (str ".sql") f)) 0
  exact List.Pairwise.sublist (List.filter_sublist _) h1

/-! ## The apply loop -/

theorem applyLoop_dryRun (remote : Remote) (contents : Str → Str) (tbl : Str) :
    ∀ (pend acc : List Migration) (s : StepState),
      applyLoop remote contents tbl true pend acc s = (.ok acc, s) := by
  intro pend
  induction pend with
  | nil => intro acc s; rfl
  | cons m rest ih => intro acc s; simpa [applyLoop] using ih acc s

/-- When every migration-SQL execution the loop reaches succeeds, the whole
pending list is executed, recorded and accumulated, in order. -/
theorem applyLoop_all_ok (remote : Remote) (contents : Str → Str) (tbl : Str) :
    ∀ (pend acc : List Migration) (s : StepState),
      (∀ i, i < pend.length → (remote (s.k + 2 * i)).isOk = true) →
      applyLoop remote contents tbl false pend acc s =
        (.ok (acc ++ pend),
         ⟨s.k + 2 * pend.length, s.trace ++ applyCalls contents tbl pend⟩) := by
  intro pend
  induction pend with
  | nil =>
    intro acc s _
    simp [applyLoop, applyCalls]
  | cons m rest ih =>
    intro acc s hok
    have h0 : (remote (s.k + 2 * 0)).isOk = true :=
      hok 0 (Nat.succ_le_succ (Nat.zero_le _))
    rw [Nat.mul_zero, Nat.add_zero] at h0
    cases hr : remote s.k with
    | err msg => rw [hr] at h0; simp [RResp.isOk] at h0
    | ok rows =>
      have ihx := ih (acc ++ [m]) ⟨s.k + 1 + 1, s.trace ++ [.execSql (contents m.filename)]
        ++ [.insertRow tbl m.name m.filename]⟩ (by
          intro i hi
          have hx := hok (i + 1) (Nat.succ_lt_succ hi)
          rw [show s.k + 1 + 1 + 2 * i = s.k + 2 * (i + 1) from by omega]
          exact hx)
      simp only [applyLoop, rpc, hr, if_neg (Bool.false_ne_true)]
      rw [ihx]
      simp [applyCalls, List.append_assoc, List.length_cons, Prod.mk.injEq,
        StepState.mk.injEq] <;> omega

/-- When the `k`-th migration-SQL execution reports an error (all earlier
ones succeeding), the loop throws the corresponding error there: migrations
after the `k`-th are not attempted and the accumulator is discarded. -/
theorem applyLoop_fail_at (remote : Remote) (contents : Str → Str) (tbl : Str) :
    ∀ (pend : List Migration) (k : Nat) (acc : List Migration) (s : StepState) (msg : Str)
      (hk : k < pend.length),
      (∀ i, i < k → (remote (s.k + 2 * i)).isOk = true) →
      remote (s.k + 2 * k) = .err msg →
      applyLoop remote contents tbl false pend acc s =
        (.error (.sqlFileFailed (pend.get ⟨k, hk⟩).filename msg),
         ⟨s.k + 2 * k + 1,
          s.trace ++ applyCalls contents tbl (pend.take k)
            ++ [.execSql (contents (pend.get ⟨k, hk⟩).filename)]⟩) := by
  intro pend
  induction pend with
  | nil => intro k acc s msg hk; simp at hk
  | cons m rest ih =>
    intro k acc s msg hk hok hfail
    cases k with
    | zero =>
      rw [Nat.mul_zero, Nat.add_zero] at hfail
      simp [applyLoop, rpc, hfail, applyCalls]
    | succ j =>
      have h0 : (remote (s.k + 2 * 0)).isOk = true :=
        hok 0 (Nat.succ_le_succ (Nat.zero_le _))
      rw [Nat.mul_zero, Nat.add_zero] at h0
      cases hr : remote s.k with
      | err m' => rw [hr] at h0; simp [RResp.isOk] at h0
      | ok rows =>
        have hj : j < rest.length := Nat.lt_of_succ_lt_succ hk
        have ihx := ih j (acc ++ [m]) ⟨s.k + 1 + 1, s.trace ++ [.execSql (contents m.filename)]
          ++ [.insertRow tbl m.name m.filename]⟩ msg hj (by
            intro i hi
            have hx := hok (i + 1) (Nat.succ_lt_succ hi)
            rw [show s.k + 1 + 1 + 2 * i = s.k + 2 * (i + 1) from by omega]
            exact hx)
          (by
            rw [show s.k + 1 + 1 + 2 * j = s.k + 2 * (j + 1) from by omega]
            exact hfail)
        simp only [applyLoop, rpc, hr, if_neg (Bool.false_ne_true)]
        rw [ihx]
        simp [applyCalls, List.take, List.get, List.append_assoc, List.length_cons,
          Prod.mk.injEq, StepState.mk.injEq] <;> omega

/-- In a non-dry run the loop's migration-SQL executions are always an
initial segment of the pending list's files, in order. -/
theorem applyLoop_execCalls (remote : Remote) (contents : Str → Str) (tbl : Str) :
    ∀ (pend acc : List Migration) (s : StepState),
      ∃ n, n ≤ pend.length ∧
        execCalls ((applyLoop remote contents tbl false pend acc s).2.trace) =
          execCalls s.trace ++
            (pend.take n).map fun m => Call.execSql (contents m.filename) := by
  intro pend
  induction pend with
  | nil =>
    intro acc s
    exact ⟨0, Nat.le_refl 0, by simp [applyLoop]⟩
  | cons m rest ih =>
    intro acc s
    cases hr : remote s.k with
    | err msg =>
      refine ⟨1, Nat.succ_le_succ (Nat.zero_le _), ?_⟩
      simp [applyLoop, rpc, hr, execCalls_append, execCalls, List.filter, isExec]
    | ok rows =>
      obtain ⟨n, hn, hcalls⟩ := ih (acc ++ [m]) ⟨s.k + 1 + 1, s.trace ++
        [.execSql (contents m.filename)] ++ [.insertRow tbl m.name m.filename]⟩
      refine ⟨n + 1, Nat.succ_le_succ hn, ?_⟩
      simp only [applyLoop, rpc, hr, if_neg (Bool.false_ne_true)]
      rw [hcalls]
      simp only [execCalls_append]
      simp [execCalls, List.filter, isExec, List.take]

/-- Unfolding of `runMigrations` past its preamble: the two table-creation
calls and the ledger `SELECT` occupy positions 0, 1 and 2 of the run, and
when the `SELECT` succeeds the run reduces to the zero-pending early return
or to the apply loop started at position 3. -/
theorem runMigrations_unfold (remote : Remote) (fs : Fs) (tbl : Str) (dryRun : Bool)
    (rows : List Migration) (h2 : remote 2 = .ok rows) :
    runMigrations remote fs tbl dryRun =
      if (computeStatus fs.dirFiles rows).pending = 0 then
        ({ success := true, appliedMigrations := [], error := none },
         ⟨3, [.createTable tbl, .createTable tbl, .selectApplied tbl]⟩)
      else
        match applyLoop remote fs.contents tbl dryRun (pendingOf fs.dirFiles rows) []
            ⟨3, [.createTable tbl, .createTable tbl, .selectApplied tbl]⟩ with
        | (.ok applied, s3) => ({ success := true, appliedMigrations := applied, error := none }, s3)
        | (.error e, s3) => ({ success := false, appliedMigrations := [], error := some e }, s3) := by
  simp only [runMigrations, getMigrationStatus, ensureMigrationsTable, getAppliedMigrations,
    rpc, StepState.init, pendingOf, List.nil_append, List.append_nil, List.singleton_append,
    List.cons_append, List.append_assoc]
  simp only [show (0 : Nat) + 1 + 1 = 2 from rfl, show (0 : Nat) + 1 + 1 + 1 = 3 from rfl, h2]

/-- In a list with strictly ascending ids (the ledger `SELECT` returns rows
`ORDER BY id ASC` on a `SERIAL` primary key), the last row has the maximal
ledger id. -/
theorem getLast_id_max :
    ∀ (l : List Migration) (h : l ≠ []), l.Pairwise (fun a b => a.id < b.id) →
      ∀ r ∈ l, r.id ≤ (l.getLast h).id := by
  intro l
  induction l with
  | nil => intro h; exact absurd rfl h
  | cons x t ih =>
    intro h hp r hr
    cases t with
    | nil =>
      rcases (List.mem_singleton).mp hr with rfl
      exact Nat.le_refl _
    | cons y u =>
      have hne : y :: u ≠ [] := List.cons_ne_nil y u
      have hlast : (x :: y :: u).getLast h = (y :: u).getLast hne := by
        exact List.getLast_cons hne
      rcases (List.mem_cons).mp hr with rfl | hr'
      · rw [hlast]
        have hmem : (y :: u).getLast hne ∈ y :: u := List.getLast_mem hne
        exact Nat.le_of_lt ((List.pairwise_cons.mp hp).1 _ hmem)
      · rw [hlast]
        exact ih hne (List.pairwise_cons.mp hp).2 r hr'

/-- Folding `mapGet` over rows none of which carry the key leaves the accumulator. -/
theorem mapGet_foldl_skip (f : Str) :
    ∀ (rows : List Migration) (acc : Option Migration),
      (∀ r ∈ rows, r.filename ≠ f) →
      rows.foldl (fun acc r => if r.filename = f then some r else acc) acc = acc := by
  intro rows
  induction rows with
  | nil => intro acc _; rfl
  | cons r rest ih =>
    intro acc hno
    have hr : r.filename ≠ f := hno r (List.mem_cons_self r rest)
    simp only [List.foldl_cons, if_neg hr]
    exact ih acc fun x hx => hno x (List.mem_cons_of_mem r hx)

theorem mapGet_eq_none (rows : List Migration) (f : Str)
    (hno : ∀ r ∈ rows, r.filename ≠ f) : mapGet rows f = none :=
  mapGet_foldl_skip f rows none hno

/-- With pairwise-distinct filenames, `mapGet` returns the matching row. -/
theorem mapGet_eq_some (f : Str) :
    ∀ (rows : List Migration), rows.Pairwise (fun a b => a.filename ≠ b.filename) →
      ∀ r0 ∈ rows, r0.filename = f → mapGet rows f = some r0 := by
  intro rows
  induction rows with
  | nil => intro _ r0 h0; simp at h0
  | cons r rest ih =>
    intro hp r0 hr0 hf
    rcases (List.mem_cons).mp hr0 with rfl | hmem
    · simp only [mapGet, List.foldl_cons, if_pos hf]
      exact mapGet_foldl_skip f rest (some r0) fun x hx => by
        intro hxf
        exact ((List.pairwise_cons.mp hp).1 x hx) (hf.trans hxf.symm)
    · have hrf : r.filename ≠ f := by
        intro hrf
        exact ((List.pairwise_cons.mp hp).1 r0 hmem) (hrf.trans hf.symm)
      simp only [mapGet, List.foldl_cons, if_neg hrf]
      exact ih (List.pairwise_cons.mp hp).2 r0 hmem hf

/-- Unfolding of `rollbackMigration` when the ledger `SELECT` (position 1)
returns rows whose last row's file has no matching down block: the
`MalformedMigrationError` outcome, with only the table-creation call and
the `SELECT` issued. -/
theorem rollbackMigration_noDown (remote : Remote) (contents : Str → Str) (tbl : Str)
    (dryRun : Bool) (rows : List Migration) (last : Migration)
    (h1 : remote 1 = .ok rows) (hlast : rows.getLast? = some last)
    (hex : extractDown (contents last.filename) = none) :
    rollbackMigration remote contents tbl dryRun =
      ({ success := false, appliedMigrations := [],
         error := some (.downNotFound last.filename) },
       ⟨2, [.createTable tbl, .selectApplied tbl]⟩) := by
  simp only [rollbackMigration, ensureMigrationsTable, getAppliedMigrations, rpc,
    StepState.init, List.nil_append, List.append_nil, List.singleton_append,
    List.cons_append, List.append_assoc, show (0 : Nat) + 1 = 1 from rfl,
    show (0 : Nat) + 1 + 1 = 2 from rfl, h1, hlast, hex]

/-- Unfolding of `rollbackMigration` in a dry run with a down block found:
success carrying the last row, with no down-SQL execution and no ledger
`DELETE` issued. -/
theorem rollbackMigration_dry (remote : Remote) (contents : Str → Str) (tbl : Str)
    (rows : List Migration) (last : Migration) (cap : Str)
    (h1 : remote 1 = .ok rows) (hlast : rows.getLast? = some last)
    (hex : extractDown (contents last.filename) = some cap) :
    rollbackMigration remote contents tbl true =
      ({ success := true, appliedMigrations := [last], error := none },
       ⟨2, [.createTable tbl, .selectApplied tbl]⟩) := by
  simp only [rollbackMigration, ensureMigrationsTable, getAppliedMigrations, rpc,
    StepState.init, List.nil_append, List.append_nil, List.singleton_append,
    List.cons_append, List.append_assoc, show (0 : Nat) + 1 = 1 from rfl,
    show (0 : Nat) + 1 + 1 = 2 from rfl, h1, hlast, hex, if_true]

/-- Unfolding of `rollbackMigration` (not a dry run) when the down-SQL
execution at position 2 reports an error: the thrown error is caught into a
failure result, and no ledger `DELETE` is issued — the trace ends at the
failed execution. -/
theorem rollbackMigration_execErr (remote : Remote) (contents : Str → Str) (tbl : Str)
    (rows : List Migration) (last : Migration) (cap msg : Str)
    (h1 : remote 1 = .ok rows) (hlast : rows.getLast? = some last)
    (hex : extractDown (contents last.filename) = some cap)
    (h2 : remote 2 = .err msg) :
    rollbackMigration remote contents tbl false =
      ({ success := false, appliedMigrations := [],
         error := some (.rollbackFailed msg) },
       ⟨3, [.createTable tbl, .selectApplied tbl, .execSql (trim cap)]⟩) := by
  simp only [rollbackMigration, ensureMigrationsTable, getAppliedMigrations, rpc,
    StepState.init, List.nil_append, List.append_nil, List.singleton_append,
    List.cons_append, List.append_assoc, show (0 : Nat) + 1 = 1 from rfl,
    show (0 : Nat) + 1 + 1 = 2 from rfl, show (0 : Nat) + 1 + 1 + 1 = 3 from rfl,
    h1, hlast, hex, h2, Bool.false_eq_true, if_false]

/-- Unfolding of `rollbackMigration` (not a dry run) when the down-SQL
execution at position 2 succeeds: success carrying the last row, with the
ledger `DELETE` for that row's id issued afterwards. -/
theorem rollbackMigration_execOk (remote : Remote) (contents : Str → Str) (tbl : Str)
    (rows : List Migration) (last : Migration) (cap : Str) (z : List Migration)
    (h1 : remote 1 = .ok rows) (hlast : rows.getLast? = some last)
    (hex : extractDown (contents last.filename) = some cap)
    (h2 : remote 2 = .ok z) :
    rollbackMigration remote contents tbl false =
      ({ success := true, appliedMigrations := [last], error := none },
       ⟨4, [.createTable tbl, .selectApplied tbl, .execSql (trim cap),
            .deleteRow tbl last.id]⟩) := by
  simp only [rollbackMigration, ensureMigrationsTable, getAppliedMigrations, rpc,
    StepState.init, List.nil_append, List.append_nil, List.singleton_append,
    List.cons_append, List.append_assoc, show (0 : Nat) + 1 = 1 from rfl,
    show (0 : Nat) + 1 + 1 = 2 from rfl, show (0 : Nat) + 1 + 1 + 1 = 3 from rfl,
    show (0 : Nat) + 1 + 1 + 1 + 1 = 4 from rfl, h1, hlast, hex, h2,
    Bool.false_eq_true, if_false]

/-- A dry run whose ledger `SELECT` succeeds: the result is always success
with an empty applied list (the loop neither calls the backend nor touches
the accumulator), and the whole trace is the preamble's three calls. -/
theorem runMigrations_dry_eq (remote : Remote) (fs : Fs) (tbl : Str)
    (rows : List Migration) (h2 : remote 2 = .ok rows) :
    runMigrations remote fs tbl true =
      ({ success := true, appliedMigrations := [], error := none },
       ⟨3, [.createTable tbl, .createTable tbl, .selectApplied tbl]⟩) := by
  rw [runMigrations_unfold remote fs tbl true rows h2]
  by_cases hp : (computeStatus fs.dirFiles rows).pending = 0
  · rw [if_pos hp]
  · rw [if_neg hp, applyLoop_dryRun]

/-- A non-dry run whose ledger `SELECT` succeeds executes migration SQL
exactly for an in-order initial segment of the pending list. -/
theorem runMigrations_execCalls_take (remote : Remote) (fs : Fs) (tbl : Str)
    (rows : List Migration) (h2 : remote 2 = .ok rows) :
    ∃ n, n ≤ (pendingOf fs.dirFiles rows).length ∧
      execCalls (runMigrations remote fs tbl false).2.trace =
        ((pendingOf fs.dirFiles rows).take n).map fun m =>
          Call.execSql (fs.contents m.filename) := by
  rw [runMigrations_unfold remote fs tbl false rows h2]
  by_cases hp : (computeStatus fs.dirFiles rows).pending = 0
  · rw [if_pos hp]
    exact ⟨0, Nat.zero_le _, rfl⟩
  · rw [if_neg hp]
    obtain ⟨n, hn, hcalls⟩ := applyLoop_execCalls remote fs.contents tbl
      (pendingOf fs.dirFiles rows) []
      ⟨3, [.createTable tbl, .createTable tbl, .selectApplied tbl]⟩
    refine ⟨n, hn, ?_⟩
    rcases hloop : applyLoop remote fs.contents tbl false (pendingOf fs.dirFiles rows) []
      ⟨3, [.createTable tbl, .createTable tbl, .selectApplied tbl]⟩ with ⟨res, s3⟩
    rw [hloop] at hcalls
    cases res with
    | ok a => simpa [execCalls, List.filter, isExec] using hcalls
    | error e => simpa [execCalls, List.filter, isExec] using hcalls

/-- Decoration commutes with any projection it leaves untouched. -/
theorem map_decorate_proj {β : Type} (rows : List Migration) (l : List Migration)
    (g : Migration → β) (hg : ∀ m, g (decorate rows m) = g m) :
    (l.map (decorate rows)).map g = l.map g := by
  induction l with
  | nil => rfl
  | cons m rest ih => simp [hg, ih]

/-! ## Claims -/

/-- C7: for every non-empty ledger, `rollbackLast` (`rollbackMigration`)
targets the ledger record with the highest id — the last row of the
id-ordered `SELECT`, which is the most recently inserted row, not the
record of the highest-sequence migration — and on success returns exactly
that single record. -/
theorem rollback_targets_last_id (remote : Remote) (contents : Str → Str) (tbl : Str)
    (rows : List Migration) (cap : Str) (hne : rows ≠ [])
    (hsort : rows.Pairwise fun a b => a.id < b.id)
    (h1 : remote 1 = .ok rows)
    (hex : extractDown (contents (rows.getLast hne).filename) = some cap)
    (hok : (remote 2).isOk = true) :
    (rollbackMigration remote contents tbl false).1 =
      { success := true, appliedMigrations := [rows.getLast hne], error := none } ∧
    ∀ r ∈ rows, r.id ≤ (rows.getLast hne).id := by
  refine ⟨?_, getLast_id_max rows hne hsort⟩
  cases h2 : remote 2 with
  | err msg => rw [h2] at hok; simp [RResp.isOk] at hok
  | ok z =>
    rw [rollbackMigration_execOk remote contents tbl rows (rows.getLast hne) cap z h1
      (List.getLast?_eq_getLast rows hne) hex h2]

/-- C7 witness: with ledger rows of ids 1–4 where row 4 is a re-application
of migration 2, rollback returns exactly row 4 (migration 2), the maximal
ledger id, not migration 3. -/
theorem rollback_targets_last_id_witness :
    (rollbackMigration (rowsRemote exRows4) exContents tblName false).1 =
      { success := true,
        appliedMigrations := [⟨4, str "create_api_tokens",
          str "02_create_api_tokens.sql", some (str "t4")⟩],
        error := none } ∧
    ∀ r ∈ exRows4, r.id ≤ (exRows4.getLast (by decide)).id := by
  have h := rollback_targets_last_id (rowsRemote exRows4) exContents tblName exRows4
    (str "DROP TABLE 02_create_api_tokens.sql;\n") (by decide) (by decide) (by decide)
    (by decide) (by decide)
  exact ⟨h.1, h.2⟩

/-- C8: for every non-empty ledger, when the remote execution of the
extracted down SQL reports an error (not a dry run), `rollbackLast` returns
a failure result and issues no ledger `DELETE` — the run's whole trace is
the table creation, the `SELECT` and the failed execution, so the targeted
record is left intact. -/
theorem rollback_fail_keeps_ledger (remote : Remote) (contents : Str → Str) (tbl : Str)
    (rows : List Migration) (cap msg : Str) (hne : rows ≠ [])
    (h1 : remote 1 = .ok rows)
    (hex : extractDown (contents (rows.getLast hne).filename) = some cap)
    (hfail : remote 2 = .err msg) :
    rollbackMigration remote contents tbl false =
      ({ success := false, appliedMigrations := [],
         error := some (.rollbackFailed msg) },
       ⟨3, [.createTable tbl, .selectApplied tbl, .execSql (trim cap)]⟩) :=
  rollbackMigration_execErr remote contents tbl rows (rows.getLast hne) cap msg h1
    (List.getLast?_eq_getLast rows hne) hex hfail

/-- C8 witness: a failing down-SQL execution over the four-row ledger gives
a failure result and a trace without any `DELETE`. -/
theorem rollback_fail_keeps_ledger_witness :
    rollbackMigration (rowsRemoteFail exRows4 (str "boom")) exContents tblName false =
      ({ success := false, appliedMigrations := [],
         error := some (.rollbackFailed (str "boom")) },
       ⟨3, [.createTable tblName, .selectApplied tblName,
            .execSql (trim (str "DROP TABLE 02_create_api_tokens.sql;\n"))]⟩) :=
  rollback_fail_keeps_ledger (rowsRemoteFail exRows4 (str "boom")) exContents tblName
    exRows4 (str "DROP TABLE 02_create_api_tokens.sql;\n") (str "boom") (by decide)
    (by decide) (by decide) (by decide)

/-- C9 (amended): for every non-empty ledger, `rollbackLast` fails with
`MalformedMigrationError` exactly when the down-extraction regex finds no
match in the target file — which requires not merely a comment-delimited
down block after the marker, but a `DROP` inside it; when the regex
matches, the captured SQL (trimmed) is the query executed remotely when not
a dry run. -/
theorem rollback_malformed_iff (remote : Remote) (contents : Str → Str) (tbl : Str)
    (dryRun : Bool) (rows : List Migration) (hne : rows ≠ [])
    (h1 : remote 1 = .ok rows) :
    ((rollbackMigration remote contents tbl dryRun).1.error
        = some (.downNotFound (rows.getLast hne).filename)
      ↔ extractDown (contents (rows.getLast hne).filename) = none) ∧
    ∀ cap, extractDown (contents (rows.getLast hne).filename) = some cap →
      dryRun = false →
        Call.execSql (trim cap) ∈ (rollbackMigration remote contents tbl dryRun).2.trace := by
  have hlast := List.getLast?_eq_getLast rows hne
  constructor
  · constructor
    · intro herr
      cases hex : extractDown (contents (rows.getLast hne).filename) with
      | none => rfl
      | some cap =>
        exfalso
        cases dryRun with
        | true =>
          rw [rollbackMigration_dry remote contents tbl rows _ cap h1 hlast hex] at herr
          simp at herr
        | false =>
          cases h2 : remote 2 with
          | err msg =>
            rw [rollbackMigration_execErr remote contents tbl rows _ cap msg h1 hlast hex h2]
              at herr
            simp at herr
          | ok z =>
            rw [rollbackMigration_execOk remote contents tbl rows _ cap z h1 hlast hex h2]
              at herr
            simp at herr
    · intro hex
      rw [rollbackMigration_noDown remote contents tbl dryRun rows _ h1 hlast hex]
  · intro cap hex hdry
    subst hdry
    cases h2 : remote 2 with
    | err msg =>
      rw [rollbackMigration_execErr remote contents tbl rows _ cap msg h1 hlast hex h2]
      simp
    | ok z =>
      rw [rollbackMigration_execOk remote contents tbl rows _ cap z h1 hlast hex h2]
      simp

/-- C9 witness: over a file with no down block at all, rollback reports
`MalformedMigrationError`, matching the regex finding nothing. -/
theorem rollback_malformed_iff_witness :
    (rollbackMigration (rowsRemote exRows1) (fun _ => str "CREATE TABLE x;") tblName
        false).1.error
      = some (.downNotFound (exRows1.getLast (by decide)).filename)
    ↔ extractDown ((fun _ => str "CREATE TABLE x;") (exRows1.getLast (by decide)).filename)
      = none :=
  (rollback_malformed_iff (rowsRemote exRows1) (fun _ => str "CREATE TABLE x;") tblName
    false exRows1 (by decide) (by decide)).1

/-- C9 counterexample to the claim as stated: this file has a
comment-delimited down block after the marker line (it reverses the up body
with a DELETE), yet `rollbackMigration` fails with
`MalformedMigrationError`, because the source's regex additionally demands
a `DROP` inside the block. -/
theorem rollback_malformed_cex :
    specHasDownBlock (exDeleteDown (str "01_create_profiles.sql")) = true ∧
    (rollbackMigration (rowsRemote exRows1) exDeleteDown tblName false).1 =
      { success := false, appliedMigrations := [],
        error := some (.downNotFound (str "01_create_profiles.sql")) } := by
  decide

/-- C1 (amended): when the `k`-th pending migration's remote execution
fails (earlier ones succeeding), `applyPending` stops immediately — the
run's migration-SQL executions are exactly the first k+1 pending files, so
nothing after the failing one is attempted — and returns success=false;
but the returned appliedMigrations list is EMPTY: the catch block discards
the partial list of migrations applied before the failure. -/
theorem applyPending_fail_stop (remote : Remote) (fs : Fs) (tbl : Str)
    (rows : List Migration) (k : Nat) (msg : Str)
    (h2 : remote 2 = .ok rows)
    (hp : (computeStatus fs.dirFiles rows).pending ≠ 0)
    (hk : k < (pendingOf fs.dirFiles rows).length)
    (hok : ∀ i, i < k → (remote (3 + 2 * i)).isOk = true)
    (hfail : remote (3 + 2 * k) = .err msg) :
    (runMigrations remote fs tbl false).1 =
      { success := false, appliedMigrations := [],
        error := some (.sqlFileFailed
          ((pendingOf fs.dirFiles rows).get ⟨k, hk⟩).filename msg) } ∧
    execCalls (runMigrations remote fs tbl false).2.trace =
      ((pendingOf fs.dirFiles rows).take (k + 1)).map fun m =>
        Call.execSql (fs.contents m.filename) := by
  have hrun : runMigrations remote fs tbl false =
      ({ success := false, appliedMigrations := [],
         error := some (.sqlFileFailed
           ((pendingOf fs.dirFiles rows).get ⟨k, hk⟩).filename msg) },
       ⟨3 + 2 * k + 1,
        [Call.createTable tbl, Call.createTable tbl, Call.selectApplied tbl]
          ++ applyCalls fs.contents tbl ((pendingOf fs.dirFiles rows).take k)
          ++ [Call.execSql (fs.contents
              ((pendingOf fs.dirFiles rows).get ⟨k, hk⟩).filename)]⟩) := by
    rw [runMigrations_unfold remote fs tbl false rows h2, if_neg hp,
      applyLoop_fail_at remote fs.contents tbl (pendingOf fs.dirFiles rows) k []
        ⟨3, [.createTable tbl, .createTable tbl, .selectApplied tbl]⟩ msg hk hok hfail]
  rw [hrun]
  refine ⟨rfl, ?_⟩
  rw [execCalls_append, execCalls_append, execCalls_applyCalls]
  rw [show execCalls [Call.createTable tbl, Call.createTable tbl, Call.selectApplied tbl]
      = [] from rfl, List.nil_append]
  rw [show (pendingOf fs.dirFiles rows).take (k + 1)
      = (pendingOf fs.dirFiles rows).take k
        ++ [(pendingOf fs.dirFiles rows).get ⟨k, hk⟩] from by
    rw [List.take_succ, List.getElem?_eq_getElem hk]; rfl]
  rw [List.map_append]
  rfl

/-- C1 witness: three pending migrations, the second's execution failing:
success=false, empty applied list, executions = first two files only. -/
theorem applyPending_fail_stop_witness :
    (runMigrations (failAt 5 (str "boom")) ⟨exDir, exSql⟩ tblName false).1.success = false ∧
    (runMigrations (failAt 5 (str "boom")) ⟨exDir, exSql⟩ tblName false).1.appliedMigrations
      = [] ∧
    execCalls (runMigrations (failAt 5 (str "boom")) ⟨exDir, exSql⟩ tblName false).2.trace =
      ((pendingOf exDir []).take 2).map fun m => Call.execSql (exSql m.filename) := by
  have h := applyPending_fail_stop (failAt 5 (str "boom")) ⟨exDir, exSql⟩ tblName [] 1
    (str "boom") (by decide) (by decide) (by decide)
    (fun i hi => by
      have h0 : i = 0 := by omega
      subst h0; decide)
    (by decide)
  exact ⟨by rw [h.1], by rw [h.1], h.2⟩

/-- C1 counterexample to the claim as stated: with three pending
migrations and the second failing, the first migration WAS executed and
recorded (its `INSERT` is call 5 of the trace), yet the failure result
carries `appliedMigrations = []` rather than the partial list
`[migration 1]` the claim requires. -/
theorem applyPending_fail_cex :
    (runMigrations (failAt 5 (str "boom")) ⟨exDir, exSql⟩ tblName false).1 =
      { success := false, appliedMigrations := [],
        error := some (.sqlFileFailed (str "02_create_api_tokens.sql") (str "boom")) } ∧
    (runMigrations (failAt 5 (str "boom")) ⟨exDir, exSql⟩ tblName false).2.trace =
      [.createTable tblName, .createTable tblName, .selectApplied tblName,
       .execSql (exSql (str "01_create_profiles.sql")),
       .insertRow tblName (str "create_profiles") (str "01_create_profiles.sql"),
       .execSql (exSql (str "02_create_api_tokens.sql"))] := by
  decide

/-- C2: pending migrations are processed in ascending sequence order: the
pending list carries strictly ascending sequence numbers (positional ids
over the lexicographically sorted filenames, preserved by reconciliation
and the pending filter), and a run's migration-SQL executions are exactly
an in-order initial segment of that list — so for pending A, B with
A.sequence < B.sequence, A's SQL is executed before B's, never after. -/
theorem applyPending_order (remote : Remote) (fs : Fs) (tbl : Str)
    (rows : List Migration) (h2 : remote 2 = .ok rows) :
    (pendingOf fs.dirFiles rows).Pairwise (fun a b => a.id < b.id) ∧
    ∃ n, n ≤ (pendingOf fs.dirFiles rows).length ∧
      execCalls (runMigrations remote fs tbl false).2.trace =
        ((pendingOf fs.dirFiles rows).take n).map fun m =>
          Call.execSql (fs.contents m.filename) :=
  ⟨pendingOf_pairwise _ _, runMigrations_execCalls_take remote fs tbl rows h2⟩

/-- C2 witness: the three-file scenario with an empty ledger. -/
theorem applyPending_order_witness :
    (pendingOf exDir []).Pairwise (fun a b => a.id < b.id) ∧
    ∃ n, n ≤ (pendingOf exDir []).length ∧
      execCalls (runMigrations okRemote ⟨exDir, exSql⟩ tblName false).2.trace =
        ((pendingOf exDir []).take n).map fun m => Call.execSql (exSql m.filename) :=
  applyPending_order okRemote ⟨exDir, exSql⟩ tblName [] rfl

/-- C3 (amended): a dry run whose ledger read succeeds returns success with
an EMPTY appliedMigrations list even when the pending set is non-empty —
the source pushes onto the list only in the non-dry branch, so the
"would apply" definitions are not reported in the result. -/
theorem applyPending_dry_result (remote : Remote) (fs : Fs) (tbl : Str)
    (rows : List Migration) (h2 : remote 2 = .ok rows) :
    (runMigrations remote fs tbl true).1 =
      { success := true, appliedMigrations := [], error := none } := by
  rw [runMigrations_dry_eq remote fs tbl rows h2]

/-- C3 witness. -/
theorem applyPending_dry_result_witness :
    (runMigrations okRemote ⟨exDir, exSql⟩ tblName true).1 =
      { success := true, appliedMigrations := [], error := none } :=
  applyPending_dry_result okRemote ⟨exDir, exSql⟩ tblName [] rfl

/-- C3 counterexample to the claim as stated: a dry run over one pending
migration returns success but its appliedMigrations list is empty, not the
non-empty pending list the claim requires. -/
theorem applyPending_dry_cex :
    (runMigrations okRemote ⟨exDirOne, exSql⟩ tblName true).1 =
      { success := true, appliedMigrations := [], error := none } ∧
    pendingOf exDirOne [] ≠ [] := by
  decide

/-- C4: dry-run purity: a dry run's whole remote trace is the two
table-creation calls and the ledger `SELECT` — no migration SQL is
executed remotely and no ledger `INSERT` (nor `DELETE`) is issued, so the
ledger is unchanged; a subsequent non-dry run over the unchanged directory
whose `SELECT` returns the same rows works through exactly the same
pending list (its executions are an initial segment of that list). -/
theorem applyPending_dry_purity (remote remote2 : Remote) (fs : Fs) (tbl : Str)
    (rows : List Migration) (h2 : remote 2 = .ok rows) (h2x : remote2 2 = .ok rows) :
    (runMigrations remote fs tbl true).2.trace =
      [.createTable tbl, .createTable tbl, .selectApplied tbl] ∧
    ∃ n, n ≤ (pendingOf fs.dirFiles rows).length ∧
      execCalls (runMigrations remote2 fs tbl false).2.trace =
        ((pendingOf fs.dirFiles rows).take n).map fun m =>
          Call.execSql (fs.contents m.filename) :=
  ⟨by rw [runMigrations_dry_eq remote fs tbl rows h2],
   runMigrations_execCalls_take remote2 fs tbl rows h2x⟩

/-- C4 witness: dry run then real run over the three-file scenario. -/
theorem applyPending_dry_purity_witness :
    (runMigrations okRemote ⟨exDir, exSql⟩ tblName true).2.trace =
      [.createTable tblName, .createTable tblName, .selectApplied tblName] ∧
    ∃ n, n ≤ (pendingOf exDir []).length ∧
      execCalls (runMigrations okRemote ⟨exDir, exSql⟩ tblName false).2.trace =
        ((pendingOf exDir []).take n).map fun m => Call.execSql (exSql m.filename) :=
  applyPending_dry_purity okRemote okRemote ⟨exDir, exSql⟩ tblName [] rfl rfl

/-- C10: the responses of the two table-creation calls (positions 0, 1)
and of each ledger `INSERT` (positions 4 + 2·i) are never inspected: when
the `SELECT` and every migration execution succeed, the run returns
success with the whole pending list applied and issues every exec/insert
pair, with NO hypothesis about the create/insert responses — so a remotely
failing `INSERT` still leaves its migration in appliedMigrations and the
run continues to the next migration with overall success. -/
theorem applyPending_ignores_insert (remote : Remote) (fs : Fs) (tbl : Str)
    (rows : List Migration)
    (h2 : remote 2 = .ok rows)
    (hp : (computeStatus fs.dirFiles rows).pending ≠ 0)
    (hok : ∀ i, i < (pendingOf fs.dirFiles rows).length →
      (remote (3 + 2 * i)).isOk = true) :
    runMigrations remote fs tbl false =
      ({ success := true, appliedMigrations := pendingOf fs.dirFiles rows, error := none },
       ⟨3 + 2 * (pendingOf fs.dirFiles rows).length,
        [.createTable tbl, .createTable tbl, .selectApplied tbl]
          ++ applyCalls fs.contents tbl (pendingOf fs.dirFiles rows)⟩) := by
  rw [runMigrations_unfold remote fs tbl false rows h2, if_neg hp,
    applyLoop_all_ok remote fs.contents tbl (pendingOf fs.dirFiles rows) []
      ⟨3, [.createTable tbl, .createTable tbl, .selectApplied tbl]⟩ hok]
  rfl

/-- C10 witness: a backend failing both table-creation calls and the
`INSERT` recording the only migration: the run still succeeds and reports
that migration applied. -/
theorem applyPending_ignores_insert_witness :
    (runMigrations ignoredErrRemote ⟨exDirOne, exSql⟩ tblName false).1.success = true ∧
    (runMigrations ignoredErrRemote ⟨exDirOne, exSql⟩ tblName false).1.appliedMigrations =
      pendingOf exDirOne [] ∧
    pendingOf exDirOne [] ≠ [] := by
  have h := applyPending_ignores_insert ignoredErrRemote ⟨exDirOne, exSql⟩ tblName []
    (by decide) (by decide)
    (fun i hi => by
      have hlen : (pendingOf (Fs.mk exDirOne exSql).dirFiles ([] : List Migration)).length = 1 := by
        decide
      have h0 : i = 0 := by omega
      subst h0; decide)
  exact ⟨by rw [h], by rw [h], by decide⟩

/-- C5 (amended): `computeStatus` always satisfies pending = total −
applied as integers (negative when the ledger holds more rows than the
directory has files); applied ≤ total holds under the proviso that the
ledger's row count does not exceed the file count; and the entries are
exactly the source definitions in sequence order (same filenames, ids and
names, in the same order), each decorated — when ledger filenames are
distinct — with the matching row's appliedAt, matched by filename, and
left undecorated when no row matches. -/
theorem computeStatus_inv (dirFiles : List Str) (rows : List Migration)
    (hle : rows.length ≤ (getAvailableMigrations dirFiles).length)
    (hdist : rows.Pairwise fun a b => a.filename ≠ b.filename) :
    (computeStatus dirFiles rows).pending =
      ((computeStatus dirFiles rows).total : Int)
        - ((computeStatus dirFiles rows).applied : Int) ∧
    (computeStatus dirFiles rows).applied ≤ (computeStatus dirFiles rows).total ∧
    (computeStatus dirFiles rows).migrations.map Migration.filename =
      (getAvailableMigrations dirFiles).map Migration.filename ∧
    (computeStatus dirFiles rows).migrations.map Migration.id =
      (getAvailableMigrations dirFiles).map Migration.id ∧
    (computeStatus dirFiles rows).migrations.map Migration.name =
      (getAvailableMigrations dirFiles).map Migration.name ∧
    ∀ m ∈ (computeStatus dirFiles rows).migrations,
      ((∀ r ∈ rows, r.filename ≠ m.filename) → m.appliedAt = none) ∧
      ∀ r ∈ rows, r.filename = m.filename → m.appliedAt = r.appliedAt := by
  refine ⟨rfl, hle, ?_, ?_, ?_, ?_⟩
  · exact map_decorate_proj rows _ Migration.filename (fun _ => rfl)
  · exact map_decorate_proj rows _ Migration.id (fun _ => rfl)
  · exact map_decorate_proj rows _ Migration.name (fun _ => rfl)
  · intro m hm
    simp only [computeStatus, List.mem_map] at hm
    obtain ⟨m0, hm0, rfl⟩ := hm
    constructor
    · intro hno
      have hnone : mapGet rows m0.filename = none :=
        mapGet_eq_none rows m0.filename (fun r hr => hno r hr)
      simp [decorate, hnone]
    · intro r hr hrf
      have hsome : mapGet rows m0.filename = some r :=
        mapGet_eq_some m0.filename rows hdist r hr hrf
      simp [decorate, hsome]

/-- C5 witness: the provisos hold for a one-file directory whose ledger
holds the matching single row. -/
theorem computeStatus_inv_witness :
    (computeStatus exDirOne exRows1).applied ≤ (computeStatus exDirOne exRows1).total :=
  (computeStatus_inv exDirOne exRows1 (by decide) (by decide)).2.1

/-- C5 counterexample to the claim as stated: with one source file and a
two-row ledger, applied = 2 exceeds total = 1 and pending = −1 — applied ≤
total does not hold for every ledger contents. -/
theorem computeStatus_inv_cex :
    (computeStatus [str "1_a.sql"] exTwoRows).applied = 2 ∧
    (computeStatus [str "1_a.sql"] exTwoRows).total = 1 ∧
    ¬((computeStatus [str "1_a.sql"] exTwoRows).applied
        ≤ (computeStatus [str "1_a.sql"] exTwoRows).total) ∧
    (computeStatus [str "1_a.sql"] exTwoRows).pending = -1 := by
  decide

/-- C6 (amended): the sequence of each produced MigrationDefinition equals
its 1-based position in the sorted, filtered file list — `index + 1` — and
not, in general, the integer denoted by the filename's numeric prefix. -/
theorem sequence_positional (dirFiles : List Str) (i : Nat)
    (hi : i < (getAvailableMigrations dirFiles).length) :
    ((getAvailableMigrations dirFiles).get ⟨i, hi⟩).id = i + 1 := by
  simpa using
    withIds_get (sortStr (dirFiles.filter fun f => endsWith (str ".sql") f)) 0 i hi

/-- C6 witness. -/
theorem sequence_positional_witness :
    ((getAvailableMigrations [str "05_foo.sql"]).get ⟨0, by decide⟩).id = 0 + 1 :=
  sequence_positional [str "05_foo.sql"] 0 (by decide)

/-- C6 counterexample to the claim as stated: the lone file `05_foo.sql`
receives sequence 1 (its position in the sorted list), not 5 (the integer
its numeric filename prefix denotes). -/
theorem sequence_prefix_cex :
    (getAvailableMigrations [str "05_foo.sql"]).map Migration.id = [1] ∧
    specPrefixNumber (str "05_foo.sql") = 5 := by
  decide

end Riptide
